import Mathlib

/-!
# Verification of the Chat-with-Docs local-context pipeline

A shallow embedding of the repository's core logic:

* `src/services/fileProcessor.ts` (exported through `src/types.ts` in this
  snapshot): `MAX_CONTEXT_CHARS`, `ALLOWED_EXTENSIONS`, `processFolder`;
* `src/App.tsx`: the upload handlers (`handleFileUpload`,
  `handleFolderUpload`), the URL-group handlers (`handleAddUrl`,
  `handleRemoveUrl`, `handleRemoveGroup`), the welcome-message effect,
  `handleSendMessage`, and the suggestion-response parsing inside
  `fetchAndSetInitialSuggestions`;
* `src/services/geminiService.ts`: the request builders
  `generateContentWithUrlContext` and `getInitialSuggestions`.

JavaScript strings are modelled by Lean `String` (a wrapper around
`List Char`); the JS built-ins the code relies on (`trim`, `substring`,
`split`, `toLowerCase`, `Array.prototype.join`, `JSON.parse`, and the
fence-stripping regular expression) are given explicit executable models
below, each next to the definition that uses it.
-/

namespace ChatWithDocs

/-! ## Models of the JavaScript string built-ins -/

/-- The whitespace class used by JS `String.prototype.trim` and by `\s` in
regular expressions (ASCII whitespace plus NBSP and BOM; the rarer Unicode
space code points are not produced by any input considered here). -/
def isJsSpace (c : Char) : Bool :=
  c == ' ' || c == '\t' || c == '\n' || c == '\r' || c == '\x0b' ||
  c == '\x0c' || c == ' ' || c == '﻿'

/-- Model of JS `String.prototype.trim`: strip leading and trailing
whitespace. -/
def jsTrim (s : String) : String :=
  ⟨((s.data.dropWhile isJsSpace).reverse.dropWhile isJsSpace).reverse⟩

/-- Model of JS `str.substring(0, n)`: the first `n` characters. -/
def jsSubstringTo (s : String) (n : Nat) : String :=
  ⟨s.data.take n⟩

/-- Helper for `jsSplit`: split a character list at every occurrence of
`c`, accumulating the current chunk in reverse. -/
def jsSplitAux (c : Char) : List Char → List Char → List (List Char)
  | [], acc => [acc.reverse]
  | x :: xs, acc =>
    if x == c then acc.reverse :: jsSplitAux c xs []
    else jsSplitAux c xs (x :: acc)

/-- Model of JS `str.split(c)` for a single-character separator. -/
def jsSplit (s : String) (c : Char) : List String :=
  (jsSplitAux c s.data []).map String.mk

/-- Model of JS `String.prototype.toLowerCase` (ASCII letters; file
extensions only contain ASCII). -/
def jsToLower (s : String) : String :=
  ⟨s.data.map Char.toLower⟩

/-- Model of JS `Array.prototype.join(sep)`. -/
def strJoin (sep : String) : List String → String
  | [] => ""
  | [x] => x
  | x :: y :: xs => x ++ sep ++ strJoin sep (y :: xs)

/-- JS truthiness of an optional string (`undefined` and `""` are falsy). -/
def jsTruthyStr : Option String → Bool
  | none => false
  | some s => s != ""

/-! ## fileProcessor: constants and `processFolder`
Source: the fileProcessor module (exported alongside `src/types.ts`). -/

/-- Constant `MAX_CONTEXT_CHARS = 1_000_000`: the character budget for local
context. -/
def MAX_CONTEXT_CHARS : Nat := 1000000

/-- Constant `ALLOWED_EXTENSIONS` from the fileProcessor module. -/
def ALLOWED_EXTENSIONS : List String :=
  [".js", ".jsx", ".ts", ".tsx", ".py", ".html", ".css", ".scss", ".md",
   ".json", ".txt", ".csv", ".yaml", ".yml", ".docx", ".pdf"]

/-- A file as delivered by the browser's folder picker: its basename, its
byte size, and its folder-relative path. -/
structure RawFile where
  name : String
  size : Nat
  webkitRelativePath : String
deriving DecidableEq

/-- Expression `` `.${file.name.split('.').pop()?.toLowerCase()}` `` — the lower-cased
extension (with leading dot) used both by `processFolder` and by
`handleFileUpload`. -/
def fileExtension (name : String) : String :=
  "." ++ jsToLower ((jsSplit name '.').getLastD "")

/-- The `validFiles` filter in `processFolder`: whitelisted extension and
`file.size > 0`. -/
def isValidFile (f : RawFile) : Bool :=
  ALLOWED_EXTENSIONS.contains (fileExtension f.name) && f.size > 0

/-- One element of `allResults` in `processFolder`: a successfully
extracted file (`name` is the `webkitRelativePath`). -/
structure FileResult where
  name : String
  content : String
deriving DecidableEq

/-- The JS truthiness test `fileResult.content && fileResult.content.trim()`
guarding inclusion in the budget loop. -/
def truthyContent (c : String) : Bool :=
  c != "" && jsTrim c != ""

/-- The budget-accumulation loop of `processFolder` (`for (const fileResult
of allResults) ...` with `totalChars` as the running total): files with
truthy content are appended while the running total plus the candidate's
length does not exceed `MAX_CONTEXT_CHARS`; the first file that would
exceed it triggers `break`. -/
def processFolderLoop : List FileResult → Nat → List FileResult
  | [], _ => []
  | r :: rest, totalChars =>
    if truthyContent r.content then
      if totalChars + r.content.length > MAX_CONTEXT_CHARS then
        []
      else
        r :: processFolderLoop rest (totalChars + r.content.length)
    else
      processFolderLoop rest totalChars

/-- Template `` `--- File: ${file.name} ---\n${file.content}` `` — the per-file block
of the merged folder content. -/
def fileBlock (r : FileResult) : String :=
  "--- File: " ++ r.name ++ " ---\n" ++ r.content

/-- The `validFiles` stage of `processFolder`. -/
def folderValidFiles (files : List RawFile) : List RawFile :=
  files.filter isValidFile

/-- The `allResults` stage of `processFolder`: each valid file is read
(`readDocxFile` / `readPdfFile` / `readTextFile`, abstracted here as
`extract`, returning `none` on a read failure); failed reads are filtered
out (`.catch(... => null)` then `.filter(Boolean)`). -/
def folderAllResults (files : List RawFile) (extract : RawFile → Option String) :
    List FileResult :=
  (folderValidFiles files).filterMap fun f =>
    (extract f).map fun c => FileResult.mk f.webkitRelativePath c

/-- The result record of `processFolder`. -/
structure FolderResult where
  fullContent : String
  processedCount : Nat
  totalValidFileCount : Nat
deriving DecidableEq

/-- Function `processFolder` from the fileProcessor module. -/
def processFolder (files : List RawFile) (extract : RawFile → Option String) :
    FolderResult :=
  let allResults := folderAllResults files extract
  let finalProcessedFiles := processFolderLoop allResults 0
  { fullContent := strJoin "\n\n" (finalProcessedFiles.map fileBlock),
    processedCount := finalProcessedFiles.length,
    totalValidFileCount := (folderValidFiles files).length }

/-! ## App state (src/App.tsx) -/

/-- Field `LocalContext.type` (`'file' | 'folder'`). -/
inductive LCType where
  | file
  | folder
deriving DecidableEq

/-- Interface `LocalContext` from `src/types.ts`. -/
structure LocalContext where
  type : LCType
  name : String
  content : String
  count : Nat
deriving DecidableEq

/-- Enum `MessageSender` from `src/types.ts`. -/
inductive MessageSender where
  | user
  | model
  | system
deriving DecidableEq

/-- Interface `ChatMessage` from `src/types.ts` (`Date` timestamps are modelled as
`Nat` milliseconds, the value of `Date.now()`). -/
structure ChatMessage where
  id : String
  text : String
  sender : MessageSender
  timestamp : Nat
  isLoading : Bool := false
deriving DecidableEq

/-- Interface `URLGroup` from `src/types.ts`. -/
structure URLGroup where
  id : String
  name : String
  urls : List String
deriving DecidableEq

/-- Constant `MAX_URLS = 50` from `src/App.tsx`. -/
def MAX_URLS : Nat := 50

/-- The React state of the `App` component that the claims are about. -/
structure AppState where
  urlGroups : List URLGroup
  activeUrlGroupId : String
  chatMessages : List ChatMessage
  isLoading : Bool
  isFetchingSuggestions : Bool
  initialQuerySuggestions : List String
  localContext : Option LocalContext
deriving DecidableEq

/-! ## handleFileUpload (src/App.tsx, truncation step) -/

/-- The truncation step of `handleFileUpload`: `finalContent` and
`wasTruncated` computed from the extracted `content`. -/
def truncateContent (content : String) : String × Bool :=
  if content.length > MAX_CONTEXT_CHARS then
    (jsSubstringTo content MAX_CONTEXT_CHARS, true)
  else
    (content, false)

/-- The `LocalContext` attached by `handleFileUpload` after a successful
read, paired with the `wasTruncated` flag that controls the "content was
truncated" notice. -/
def handleFileUploadResult (fileName : String) (content : String) :
    LocalContext × Bool :=
  let p := truncateContent content
  ({ type := LCType.file, name := fileName, content := p.1, count := 1 }, p.2)

/-- The `LocalContext` attached by `handleFolderUpload` from a
`processFolder` result: `none` when `processedCount === 0` (no context is
attached), otherwise the folder context with the merged content. -/
def handleFolderUploadResult (folderName : String) (res : FolderResult) :
    Option LocalContext :=
  if res.processedCount = 0 then none
  else some { type := LCType.folder, name := folderName,
              content := res.fullContent, count := res.processedCount }

/-! ## The welcome-message effect (src/App.tsx, `useEffect` on
`[activeUrlGroupId, urlGroups]`) -/

/-- The effect that runs on every change of the active URL group (and of
the group collection): clears the local context and resets the message log
to a single fresh system welcome message. `apiKey` is
`process.env.API_KEY`; `now` is `Date.now()`. -/
def welcomeEffect (apiKey : Option String) (now : Nat) (s : AppState) : AppState :=
  let currentActiveGroup := s.urlGroups.find? fun g => g.id == s.activeUrlGroupId
  let groupName :=
    match currentActiveGroup with
    | some g => if g.name != "" then g.name else "無"
    | none => "無"
  let welcomeMessageText :=
    if jsTruthyStr apiKey then
      "歡迎使用文件瀏覽器！您目前正在瀏覽的內容來自：「" ++ groupName ++
        "」。請直接向我提問，或嘗試下方的建議問題開始。"
    else
      "錯誤：Gemini API 金鑰 (process.env.API_KEY) 尚未設定。請設定此環境變數以使用本應用程式。"
  { s with
    localContext := none,
    chatMessages := [{ id := "system-welcome-" ++ s.activeUrlGroupId ++ "-" ++ toString now,
                       text := welcomeMessageText,
                       sender := MessageSender.system,
                       timestamp := now }] }

/-! ## URL and group handlers (src/App.tsx) -/

/-- Handler `handleAddUrl`: map over the groups, appending `url` to the active
group only when it holds fewer than `MAX_URLS` URLs and does not already
contain it. -/
def handleAddUrl (url : String) (s : AppState) : AppState :=
  { s with
    urlGroups := s.urlGroups.map fun group =>
      if group.id == s.activeUrlGroupId then
        if group.urls.length < MAX_URLS && !(group.urls.contains url) then
          { group with urls := group.urls ++ [url] }
        else group
      else group }

/-- Handler `handleRemoveUrl`: map over the groups, filtering `urlToRemove` out of
the active group's list. -/
def handleRemoveUrl (urlToRemove : String) (s : AppState) : AppState :=
  { s with
    urlGroups := s.urlGroups.map fun group =>
      if group.id == s.activeUrlGroupId then
        { group with urls := group.urls.filter fun url => url != urlToRemove }
      else group }

/-- Handler `handleRemoveGroup`: rejected (state unchanged, after an alert) when at
most one group remains; otherwise, after the user confirms
(`window.confirm`, modelled by `confirmed`), the group is filtered out and,
when it was the active one, the first remaining group becomes active. The
source reads `newGroups[0].id`, which presumes a remaining group; the
`getD` default covers the out-of-domain case where none remains. -/
def handleRemoveGroup (groupId : String) (confirmed : Bool) (s : AppState) : AppState :=
  if s.urlGroups.length ≤ 1 then s
  else if confirmed then
    let newGroups := s.urlGroups.filter fun g => g.id != groupId
    if s.activeUrlGroupId == groupId then
      { s with urlGroups := newGroups,
               activeUrlGroupId := ((newGroups.head?).map URLGroup.id).getD s.activeUrlGroupId }
    else { s with urlGroups := newGroups }
  else s

/-! ## handleSendMessage (src/App.tsx) -/

/-- The system message appended by `handleSendMessage` when the API key is
missing. -/
def apiKeyErrorMessage (now : Nat) : ChatMessage :=
  { id := "error-apikey-" ++ toString now,
    text := "錯誤：API 金鑰 (process.env.API_KEY) 尚未設定。請先設定才能傳送訊息。",
    sender := MessageSender.system,
    timestamp := now }

/-- Handler `handleSendMessage` up to the outbound call: returns the new state and
whether a backend network call is issued (`generateContentWithUrlContext`
is awaited only on the final branch). A blank query or a pending
send/suggestion fetch is a silent no-op; a missing API key appends the
configuration-error system message without any call; otherwise the user
message and the loading placeholder are appended and the call is issued. -/
def handleSendMessage (apiKey : Option String) (now : Nat) (query : String)
    (s : AppState) : AppState × Bool :=
  if jsTrim query == "" || s.isLoading || s.isFetchingSuggestions then
    (s, false)
  else if !(jsTruthyStr apiKey) then
    ({ s with chatMessages := s.chatMessages ++ [apiKeyErrorMessage now] }, false)
  else
    let userMessage : ChatMessage :=
      { id := "user-" ++ toString now, text := query,
        sender := MessageSender.user, timestamp := now }
    let modelPlaceholderMessage : ChatMessage :=
      { id := "model-response-" ++ toString now, text := "思考中...",
        sender := MessageSender.model, timestamp := now, isLoading := true }
    ({ s with
       isLoading := true,
       initialQuerySuggestions := [],
       chatMessages := s.chatMessages ++ [userMessage, modelPlaceholderMessage] }, true)

/-! ## Request builders (src/services/geminiService.ts) -/

/-- The `urlContext` grounding tool (the only tool this app ever builds). -/
inductive Tool where
  | urlContext (urls : List String)
deriving DecidableEq

/-- The `config` object passed to `ai.models.generateContent`. -/
structure GenConfig where
  tools : List Tool := []
  safetySettings : List (String × String) := []
  responseMimeType : Option String := none
deriving DecidableEq

/-- A `generateContent` request: model name, `(role, text)` contents, and
config. -/
structure GenRequest where
  model : String
  contents : List (String × String)
  config : GenConfig
deriving DecidableEq

/-- Constant `MODEL_NAME` from `src/services/geminiService.ts`. -/
def MODEL_NAME : String := "gemini-2.5-flash"

/-- The `safetySettings` constant. -/
def safetySettings : List (String × String) :=
  [("HARM_CATEGORY_HARASSMENT", "BLOCK_MEDIUM_AND_ABOVE"),
   ("HARM_CATEGORY_HATE_SPEECH", "BLOCK_MEDIUM_AND_ABOVE"),
   ("HARM_CATEGORY_SEXUALLY_EXPLICIT", "BLOCK_MEDIUM_AND_ABOVE"),
   ("HARM_CATEGORY_DANGEROUS_CONTENT", "BLOCK_MEDIUM_AND_ABOVE")]

/-- The `fullPrompt` built by `generateContentWithUrlContext`: the query,
the fixed answer-in-Traditional-Chinese instruction, and — when
`fileContent` is truthy — the delimited local-context block. -/
def buildFullPrompt (prompt : String) (fileContent : Option String) : String :=
  let base := prompt ++ "\n\n請用繁體中文回答。"
  if jsTruthyStr fileContent then
    base ++ "\n\n也請參考以下上傳的檔案內容：\n---\n" ++ fileContent.getD "" ++ "\n---"
  else base

/-- The request issued by `generateContentWithUrlContext`: the `urlContext`
tool is attached exactly when `urls` is non-empty, and no
`responseMimeType` is ever set. -/
def generateContentRequest (prompt : String) (urls : List String)
    (fileContent : Option String) : GenRequest :=
  let tools := if urls.length > 0 then [Tool.urlContext urls] else []
  { model := MODEL_NAME,
    contents := [("user", buildFullPrompt prompt fileContent)],
    config := { tools := tools, safetySettings := safetySettings,
                responseMimeType := none } }

/-- The prompt text of `getInitialSuggestions`. -/
def suggestionsPromptText (urls : List String) : String :=
  "根據以下文件 URL 的內容，提供 3-4 個開發人員可能會問的簡潔且可操作的問題，以探索這些文件。這些問題應適合作為快速入門的提示。請僅回傳一個 JSON 物件，其中包含一個名為 \"suggestions\" 的鍵，其值為這些問題字串的陣列。例如：\x7b\"suggestions\": [\"速率限制是多少？\", \"如何取得 API 金鑰？\", \"解釋一下模型 X。\"]\x7d\n\nRelevant URLs:\n" ++
  strJoin "\n" urls

/-- Whether `getInitialSuggestions` issues a backend call at all: with an
empty `urls` list it returns a canned response without calling the API. -/
def suggestionsCallMade (urls : List String) : Bool :=
  urls.length != 0

/-- The request issued by `getInitialSuggestions` (when
`suggestionsCallMade` holds): JSON response mode, and no tools. -/
def getInitialSuggestionsRequest (urls : List String) : GenRequest :=
  { model := MODEL_NAME,
    contents := [("user", suggestionsPromptText urls)],
    config := { tools := [], safetySettings := safetySettings,
                responseMimeType := some "application/json" } }

/-! ## Model of `JSON.parse` (used by `fetchAndSetInitialSuggestions`) -/

/-- JSON values. Numbers keep their source lexeme (no numeric claim depends
on their value). -/
inductive Json where
  | null
  | bool (b : Bool)
  | num (lexeme : String)
  | str (s : String)
  | arr (elements : List Json)
  | obj (fields : List (String × Json))

/-- JSON insignificant whitespace. -/
def skipWs (l : List Char) : List Char :=
  l.dropWhile fun c => c == ' ' || c == '\t' || c == '\n' || c == '\r'

/-- Value of a hexadecimal digit. -/
def hexVal (c : Char) : Option Nat :=
  if c.isDigit then some (c.toNat - 48)
  else if 'a' ≤ c && c ≤ 'f' then some (c.toNat - 87)
  else if 'A' ≤ c && c ≤ 'F' then some (c.toNat - 55)
  else none

/-- Parse the body of a JSON string literal (after the opening quote),
accumulating decoded characters in reverse. -/
def parseStringAux : List Char → List Char → Option (String × List Char)
  | [], _ => none
  | '"' :: rest, acc => some (String.mk acc.reverse, rest)
  | '\\' :: '"' :: rest, acc => parseStringAux rest ('"' :: acc)
  | '\\' :: '\\' :: rest, acc => parseStringAux rest ('\\' :: acc)
  | '\\' :: '/' :: rest, acc => parseStringAux rest ('/' :: acc)
  | '\\' :: 'b' :: rest, acc => parseStringAux rest ('\x08' :: acc)
  | '\\' :: 'f' :: rest, acc => parseStringAux rest ('\x0c' :: acc)
  | '\\' :: 'n' :: rest, acc => parseStringAux rest ('\n' :: acc)
  | '\\' :: 'r' :: rest, acc => parseStringAux rest ('\r' :: acc)
  | '\\' :: 't' :: rest, acc => parseStringAux rest ('\t' :: acc)
  | '\\' :: 'u' :: h1 :: h2 :: h3 :: h4 :: rest, acc =>
    match hexVal h1, hexVal h2, hexVal h3, hexVal h4 with
    | some a, some b, some c, some d =>
      parseStringAux rest (Char.ofNat (((a * 16 + b) * 16 + c) * 16 + d) :: acc)
    | _, _, _, _ => none
  | '\\' :: _, _ => none
  | c :: rest, acc => parseStringAux rest (c :: acc)

/-- Characters that may occur in a JSON number lexeme. -/
def isNumChar (c : Char) : Bool :=
  c.isDigit || c == '-' || c == '+' || c == '.' || c == 'e' || c == 'E'

mutual

/-- Recursive-descent JSON value parser; `fuel` bounds the recursion and is
chosen large enough for the whole input at the top-level call. -/
def parseValue : Nat → List Char → Option (Json × List Char)
  | 0, _ => none
  | fuel + 1, input =>
    match skipWs input with
    | 'n' :: 'u' :: 'l' :: 'l' :: rest => some (Json.null, rest)
    | 't' :: 'r' :: 'u' :: 'e' :: rest => some (Json.bool true, rest)
    | 'f' :: 'a' :: 'l' :: 's' :: 'e' :: rest => some (Json.bool false, rest)
    | '"' :: rest => (parseStringAux rest []).map fun p => (Json.str p.1, p.2)
    | '[' :: rest =>
      (match skipWs rest with
       | ']' :: r => some (Json.arr [], r)
       | _ => parseArrayLoop fuel rest [])
    | '{' :: rest =>
      (match skipWs rest with
       | '}' :: r => some (Json.obj [], r)
       | _ => parseObjLoop fuel rest [])
    | c :: rest =>
      if c == '-' || c.isDigit then
        let lexeme := (c :: rest).takeWhile isNumChar
        if lexeme.any Char.isDigit then
          some (Json.num (String.mk lexeme), (c :: rest).drop lexeme.length)
        else none
      else none
    | [] => none

/-- Parse the comma-separated elements of a non-empty JSON array. -/
def parseArrayLoop : Nat → List Char → List Json → Option (Json × List Char)
  | 0, _, _ => none
  | fuel + 1, input, acc =>
    match parseValue fuel input with
    | none => none
    | some (v, rest) =>
      match skipWs rest with
      | ',' :: r2 => parseArrayLoop fuel r2 (v :: acc)
      | ']' :: r2 => some (Json.arr (v :: acc).reverse, r2)
      | _ => none

/-- Parse the comma-separated members of a non-empty JSON object. -/
def parseObjLoop : Nat → List Char → List (String × Json) → Option (Json × List Char)
  | 0, _, _ => none
  | fuel + 1, input, acc =>
    match skipWs input with
    | '"' :: rest =>
      (match parseStringAux rest [] with
       | none => none
       | some (key, r1) =>
         match skipWs r1 with
         | ':' :: r2 =>
           (match parseValue fuel r2 with
            | none => none
            | some (v, r3) =>
              match skipWs r3 with
              | ',' :: r4 => parseObjLoop fuel r4 ((key, v) :: acc)
              | '}' :: r4 => some (Json.obj ((key, v) :: acc).reverse, r4)
              | _ => none)
         | _ => none)
    | _ => none

end

/-- Model of `JSON.parse`: parse one value and require only whitespace
after it; `none` models the thrown `SyntaxError`. -/
def jsonParse (s : String) : Option Json :=
  match parseValue (4 * s.data.length + 8) s.data with
  | some (v, rest) => if (skipWs rest).isEmpty then some v else none
  | none => none

/-- Whether a JSON number lexeme denotes zero (all mantissa digits are
`0`). -/
def jsonNumLexIsZero (lexeme : String) : Bool :=
  (lexeme.data.takeWhile fun c => !(c == 'e' || c == 'E')).all
    fun c => !c.isDigit || c == '0'

/-- JS truthiness of a parsed JSON value (`null`, `false`, `0`, and `""`
are falsy). -/
def jsTruthy : Json → Bool
  | Json.null => false
  | Json.bool b => b
  | Json.num lexeme => !(jsonNumLexIsZero lexeme)
  | Json.str s => s != ""
  | Json.arr _ => true
  | Json.obj _ => true

/-- Model of JS property access `parsed.suggestions`: object lookup with
the last duplicate key winning (as `JSON.parse` keeps the last); `none`
models `undefined` (also for non-objects). -/
def jsonGetProp (j : Json) (key : String) : Option Json :=
  match j with
  | Json.obj fields => ((fields.filter fun p => p.1 == key).getLast?).map Prod.snd
  | _ => none

/-! ## The code-fence regular expression
`/^```(\w*)?\s*\n?(.*?)\n?\s*```$/s` from `fetchAndSetInitialSuggestions`.
The matcher below enumerates the alternatives in the engine's backtracking
order (greedy `\w*`, greedy `\s*`, greedy `\n?`, then the lazy group) and
returns the first success's capture group 2. -/

/-- Class `\w` of JS regular expressions (ASCII). -/
def isWordChar (c : Char) : Bool :=
  c.isAlpha || c.isDigit || c == '_'

/-- The splits `(run, rest)` of a greedy `p*` at the start of `l`, longest
run first (the backtracking order of a greedy star). -/
def runSplits (p : Char → Bool) (l : List Char) : List (List Char × List Char) :=
  ((List.range ((l.takeWhile p).length + 1)).reverse).map fun k => (l.take k, l.drop k)

/-- The remainders after a greedy `\n?` at the start of `l`, in
backtracking order (consume the newline first). -/
def newlineSplits (l : List Char) : List (List Char) :=
  match l with
  | '\n' :: rest => [rest, '\n' :: rest]
  | _ => [l]

/-- Whether `l` matches `\n?\s*` ``` `` ``` `$` — equivalently, whitespace
followed by a final triple backtick. -/
def fenceTailMatches (l : List Char) : Bool :=
  decide (3 ≤ l.length) && (l.drop (l.length - 3) == ['`', '`', '`']) &&
    ((l.take (l.length - 3)).all isJsSpace)

/-- The lazy group `(.*?)`: the shortest initial segment of `l` whose
remainder matches the tail of the pattern. -/
def lazyGroupSearch (l : List Char) : Option (List Char) :=
  ((List.range (l.length + 1)).find? fun k => fenceTailMatches (l.drop k)).map
    fun k => l.take k

/-- Capture `match[2]` of the fence regular expression applied to `s`, or `none`
when the regular expression does not match. -/
def fenceMatchGroup2 (s : String) : Option String :=
  if s.data.take 3 == ['`', '`', '`'] then
    let r0 := s.data.drop 3
    let candidates :=
      (runSplits isWordChar r0).flatMap fun pw =>
        (runSplits isJsSpace pw.2).flatMap fun ps =>
          (newlineSplits ps.2).flatMap fun r2 =>
            match lazyGroupSearch r2 with
            | some g => [g]
            | none => []
    (candidates.head?).map String.mk
  else none

/-! ## Suggestion-response processing (src/App.tsx,
`fetchAndSetInitialSuggestions`) -/

/-- The `jsonStr` actually passed to `JSON.parse`: the trimmed response
text, with the fence wrapper stripped (and re-trimmed) when the regular
expression matches with a truthy group 2. -/
def effectiveJsonStr (responseText : String) : String :=
  let jsonStr := jsTrim responseText
  match fenceMatchGroup2 jsonStr with
  | some inner => if inner != "" then jsTrim inner else jsonStr
  | none => jsonStr

/-- The system message shown on a shape mismatch. -/
def suggestionFormatErrorText : String := "收到的建議格式有誤。"

/-- The system message shown when `JSON.parse` throws. -/
def suggestionParseErrorText : String := "解析 AI 建議時發生錯誤。"

/-- The shape test `parsed && Array.isArray(parsed.suggestions)`. -/
def suggestionsShapeOk (parsed : Json) : Bool :=
  jsTruthy parsed &&
    (match jsonGetProp parsed "suggestions" with
     | some (Json.arr _) => true
     | _ => false)

/-- Expression `parsed.suggestions.filter(s => typeof s === 'string')`. -/
def extractSuggestions (parsed : Json) : List String :=
  match jsonGetProp parsed "suggestions" with
  | some (Json.arr elements) =>
    elements.filterMap fun j =>
      match j with
      | Json.str s => some s
      | _ => none
  | _ => []

/-- The observable outcome of the suggestion-processing block of
`fetchAndSetInitialSuggestions` on a response text: the suggestion list
stored by `setInitialQuerySuggestions(suggestionsArray.slice(0, 4))`, and
the text of the system error message appended (if any). Falsy response
text skips parsing entirely. -/
def fetchSuggestionsOutcome (responseText : String) : List String × Option String :=
  if responseText != "" then
    match jsonParse (effectiveJsonStr responseText) with
    | some parsed =>
      if suggestionsShapeOk parsed then
        ((extractSuggestions parsed).take 4, none)
      else
        (([] : List String).take 4, some suggestionFormatErrorText)
    | none => (([] : List String).take 4, some suggestionParseErrorText)
  else ([], none)

/-! ## Derived notions used to state the claims -/

/-- Total character count of a list of file results. -/
def sumLen (l : List FileResult) : Nat :=
  (l.map fun r => r.content.length).sum

/-- The prefix-greedy accumulation on an already-filtered list: include
files in order while the running total fits the budget, stop at the first
file that would exceed it. `processFolderLoop` is proved equal to this on
the truthy-filtered list. -/
def greedyTake : List FileResult → Nat → List FileResult
  | [], _ => []
  | r :: rest, totalChars =>
    if totalChars + r.content.length > MAX_CONTEXT_CHARS then []
    else r :: greedyTake rest (totalChars + r.content.length)

/-- The files of a folder upload that pass extraction and the truthiness
test, in discovery order — the candidates of the budget loop. -/
def truthyResults (files : List RawFile) (extract : RawFile → Option String) :
    List FileResult :=
  (folderAllResults files extract).filter fun r => truthyContent r.content

/-- The characters the merged folder content adds on top of the included
files' text: a 15-character header frame plus the relative path per file,
and a 2-character separator per file. -/
def headerOverhead (l : List FileResult) : Nat :=
  (l.map fun r => 15 + r.name.length).sum + 2 * l.length

/-! ## Concrete inputs for witnesses and counterexamples -/

/-- A file text of exactly `MAX_CONTEXT_CHARS` characters. -/
def bigContent : String :=
  ⟨List.replicate MAX_CONTEXT_CHARS 'a'⟩

/-- A single one-byte text file for the folder-upload counterexample. -/
def bigFile : RawFile :=
  { name := "a.txt", size := 1, webkitRelativePath := "folder/a.txt" }

/-- An extraction function returning `bigContent` for every file. -/
def bigExtract : RawFile → Option String :=
  fun _ => some bigContent

/-- A file text one character over the budget, for the single-file
truncation witness. -/
def overlongContent : String :=
  ⟨List.replicate (MAX_CONTEXT_CHARS + 1) 'b'⟩

/-- The spec's folder scenario: three eligible files. -/
def scenarioFiles : List RawFile :=
  [{ name := "one.txt", size := 1, webkitRelativePath := "docs/one.txt" },
   { name := "two.txt", size := 1, webkitRelativePath := "docs/two.txt" },
   { name := "three.txt", size := 1, webkitRelativePath := "docs/three.txt" }]

/-- A 400000-character file text for the folder scenario. -/
def scenarioContent : String :=
  ⟨List.replicate 400000 'c'⟩

/-- Extraction for the folder scenario: every file reads as
`scenarioContent`. -/
def scenarioExtract : RawFile → Option String :=
  fun _ => some scenarioContent

/-- A two-group state used by concrete witnesses. -/
def sampleState : AppState :=
  { urlGroups := [{ id := "g1", name := "Group 1", urls := ["https://a.example"] },
                  { id := "g2", name := "Group 2", urls := [] }],
    activeUrlGroupId := "g1",
    chatMessages := [],
    isLoading := false,
    isFetchingSuggestions := false,
    initialQuerySuggestions := [],
    localContext := none }

/-- A one-group state used by the group-removal witness. -/
def singleGroupState : AppState :=
  { sampleState with
    urlGroups := [{ id := "g1", name := "Group 1", urls := [] }] }

/-! ## Helper lemmas -/

theorem string_mk_length (l : List Char) : (String.mk l).length = l.length := rfl

theorem string_length_data (s : String) : s.length = s.data.length := rfl

theorem jsSubstringTo_length (s : String) (n : Nat) :
    (jsSubstringTo s n).length = min n s.length := by
  show (s.data.take n).length = min n s.length
  rw [List.length_take, string_length_data]

/-! ## C7: grounding tools and JSON response mode are never combined -/

/-- C7: for every outbound backend call, a grounding-tool URL list and the
JSON-response-mode flag are never both present: the request built by
`generateContentWithUrlContext` never sets `responseMimeType` (its tools
are either empty or the single `urlContext` tool), and the request built by
`getInitialSuggestions` sets `responseMimeType "application/json"` but
never attaches tools. -/
theorem claim_c7_tools_and_json_mode_exclusive (prompt : String)
    (urls urls2 : List String) (fileContent : Option String) :
    (generateContentRequest prompt urls fileContent).config.responseMimeType = none ∧
    ((generateContentRequest prompt urls fileContent).config.tools = [] ∨
      (generateContentRequest prompt urls fileContent).config.tools = [Tool.urlContext urls]) ∧
    (getInitialSuggestionsRequest urls2).config.responseMimeType = some "application/json" ∧
    (getInitialSuggestionsRequest urls2).config.tools = [] := by
  refine ⟨rfl, ?_, rfl, rfl⟩
  by_cases h : urls.length > 0
  · right
    simp [generateContentRequest, h]
  · left
    simp [generateContentRequest, h]

/-! ## C8: switching the active group resets the log and the local context -/

/-- C8: after every run of the welcome-message effect (which runs on every
switch of the active URL group), the message log is exactly one fresh
system welcome message (its id derives from the active group id and the
current time) and the attached local context has been cleared. -/
theorem claim_c8_group_switch_resets (apiKey : Option String) (now : Nat)
    (s : AppState) :
    (welcomeEffect apiKey now s).chatMessages.length = 1 ∧
    ((welcomeEffect apiKey now s).chatMessages.head?).map ChatMessage.sender =
      some MessageSender.system ∧
    ((welcomeEffect apiKey now s).chatMessages.head?).map ChatMessage.id =
      some ("system-welcome-" ++ s.activeUrlGroupId ++ "-" ++ toString now) ∧
    (welcomeEffect apiKey now s).localContext = none := by
  refine ⟨rfl, rfl, rfl, rfl⟩

/-! ## C2: single-file truncation -/

/-- C2: for every single-file upload, if the extracted text's length
exceeds `MAX_CONTEXT_CHARS` then the attached content is exactly the first
`MAX_CONTEXT_CHARS` characters of that text (so its length is exactly
`MAX_CONTEXT_CHARS`) and the truncation flag is set; otherwise the
attached content equals the extracted text and the flag is unset. -/
theorem claim_c2_single_file_truncation (fileName content : String) :
    (MAX_CONTEXT_CHARS < content.length →
      (handleFileUploadResult fileName content).1.content.data =
        content.data.take MAX_CONTEXT_CHARS ∧
      (handleFileUploadResult fileName content).1.content.length = MAX_CONTEXT_CHARS ∧
      (handleFileUploadResult fileName content).2 = true) ∧
    (content.length ≤ MAX_CONTEXT_CHARS →
      (handleFileUploadResult fileName content).1.content = content ∧
      (handleFileUploadResult fileName content).2 = false) := by
  constructor
  · intro h
    have hif : content.length > MAX_CONTEXT_CHARS := h
    refine ⟨?_, ?_, ?_⟩
    · simp [handleFileUploadResult, truncateContent, hif, jsSubstringTo]
    · simp only [handleFileUploadResult, truncateContent, hif, if_pos]
      rw [jsSubstringTo_length]
      omega
    · simp [handleFileUploadResult, truncateContent, hif]
  · intro h
    have hif : ¬ (content.length > MAX_CONTEXT_CHARS) := by omega
    exact ⟨by simp [handleFileUploadResult, truncateContent, hif],
           by simp [handleFileUploadResult, truncateContent, hif]⟩

/-- Witness for C2 at concrete inputs: a text one character over the budget
is truncated to exactly `MAX_CONTEXT_CHARS` characters with the flag set,
and a short text is attached verbatim with the flag unset. -/
theorem claim_c2_witness :
    MAX_CONTEXT_CHARS < overlongContent.length ∧
    (handleFileUploadResult "big.txt" overlongContent).1.content.length =
      MAX_CONTEXT_CHARS ∧
    (handleFileUploadResult "big.txt" overlongContent).2 = true ∧
    (handleFileUploadResult "a.txt" "hi").1.content = "hi" ∧
    (handleFileUploadResult "a.txt" "hi").2 = false := by
  have hlen : overlongContent.length = MAX_CONTEXT_CHARS + 1 := by
    simp [overlongContent, string_mk_length]
  have h1 : MAX_CONTEXT_CHARS < overlongContent.length := by omega
  have hbig := (claim_c2_single_file_truncation "big.txt" overlongContent).1 h1
  have hsmall := (claim_c2_single_file_truncation "a.txt" "hi").2 (by decide)
  exact ⟨h1, hbig.2.1, hbig.2.2, hsmall.1, hsmall.2⟩

/-! ## C6: missing credential blocks the send -/

/-- C6: whenever the API credential is not configured (absent or empty) and
the user sends a (non-blank) query while no send or suggestion fetch is
pending, no backend network call occurs and the system configuration-error
message is appended to the chat log. -/
theorem claim_c6_missing_key_no_call (apiKey : Option String) (now : Nat)
    (query : String) (s : AppState)
    (hkey : jsTruthyStr apiKey = false)
    (hquery : jsTrim query ≠ "")
    (hload : s.isLoading = false)
    (hfetch : s.isFetchingSuggestions = false) :
    (handleSendMessage apiKey now query s).2 = false ∧
    (handleSendMessage apiKey now query s).1.chatMessages =
      s.chatMessages ++ [apiKeyErrorMessage now] ∧
    (apiKeyErrorMessage now).sender = MessageSender.system := by
  have hq : (jsTrim query == "") = false := by
    simpa using hquery
  refine ⟨?_, ?_, rfl⟩ <;>
    simp [handleSendMessage, hq, hload, hfetch, hkey]

/-- Witness for C6: with no credential and the query `"hi"` in the sample
state, no call is made and the configuration-error system message is
appended. -/
theorem claim_c6_witness :
    (handleSendMessage none 7 "hi" sampleState).2 = false ∧
    (handleSendMessage none 7 "hi" sampleState).1.chatMessages =
      sampleState.chatMessages ++ [apiKeyErrorMessage 7] ∧
    (apiKeyErrorMessage 7).sender = MessageSender.system :=
  claim_c6_missing_key_no_call none 7 "hi" sampleState rfl (by decide) rfl rfl

/-! ## The folder budget loop: greedy-prefix structure -/

@[simp]
theorem sumLen_nil : sumLen [] = 0 := rfl

@[simp]
theorem sumLen_cons (r : FileResult) (l : List FileResult) :
    sumLen (r :: l) = r.content.length + sumLen l := by
  simp [sumLen]

/-- The budget loop equals the greedy accumulation on the truthy-filtered
list: skipped files do not consume budget, and the `break` cuts the rest of
the (filtered) sequence. -/
theorem processFolderLoop_eq_greedy (l : List FileResult) :
    ∀ tc, processFolderLoop l tc =
      greedyTake (l.filter fun r => truthyContent r.content) tc := by
  induction l with
  | nil => intro tc; rfl
  | cons r rest ih =>
    intro tc
    by_cases h : truthyContent r.content
    · simp [processFolderLoop, List.filter_cons, h, greedyTake, ih]
    · simp [processFolderLoop, List.filter_cons, h, ih]

theorem greedyTake_length_le (l : List FileResult) :
    ∀ tc, (greedyTake l tc).length ≤ l.length := by
  induction l with
  | nil => intro tc; simp [greedyTake]
  | cons r rest ih =>
    intro tc
    by_cases h : tc + r.content.length > MAX_CONTEXT_CHARS
    · simp [greedyTake, h]
    · simp only [greedyTake, h, if_neg, List.length_cons, if_false]
      have := ih (tc + r.content.length)
      simpa using Nat.succ_le_succ this

theorem greedyTake_sum_le (l : List FileResult) :
    ∀ tc, tc ≤ MAX_CONTEXT_CHARS →
      tc + sumLen (greedyTake l tc) ≤ MAX_CONTEXT_CHARS := by
  induction l with
  | nil => intro tc h; simpa [greedyTake]
  | cons r rest ih =>
    intro tc h
    by_cases hgt : tc + r.content.length > MAX_CONTEXT_CHARS
    · simpa [greedyTake, hgt]
    · have := ih (tc + r.content.length) (by omega)
      simp only [greedyTake, hgt, if_false, sumLen_cons]
      omega

/-- The greedy accumulation takes a prefix: there is a cut point `k` such
that exactly the first `k` files are included, every prefix up to `k` fits
the budget, and (when a file is excluded at all) the first excluded file
would overflow the budget. -/
theorem greedyTake_spec (l : List FileResult) :
    ∀ tc, tc ≤ MAX_CONTEXT_CHARS →
      ∃ k, k ≤ l.length ∧ greedyTake l tc = l.take k ∧
        (∀ j, j ≤ k → tc + sumLen (l.take j) ≤ MAX_CONTEXT_CHARS) ∧
        (k < l.length → MAX_CONTEXT_CHARS < tc + sumLen (l.take (k + 1))) := by
  induction l with
  | nil =>
    intro tc h
    refine ⟨0, Nat.le_refl 0, rfl, ?_, by simp⟩
    intro j hj
    have : j = 0 := Nat.le_zero.mp hj
    simpa [this]
  | cons r rest ih =>
    intro tc h
    by_cases hgt : MAX_CONTEXT_CHARS < tc + r.content.length
    · refine ⟨0, Nat.zero_le _, ?_, ?_, ?_⟩
      · simp [greedyTake, hgt]
      · intro j hj
        have : j = 0 := Nat.le_zero.mp hj
        simpa [this]
      · intro _
        simpa using hgt
    · obtain ⟨k, hk, hek, hsum, hover⟩ := ih (tc + r.content.length) (by omega)
      refine ⟨k + 1, by simpa using Nat.succ_le_succ hk, ?_, ?_, ?_⟩
      · simp only [greedyTake, hgt, if_false, List.take_succ_cons]
        rw [hek]
      · intro j hj
        cases j with
        | zero => simpa
        | succ j' =>
          have := hsum j' (Nat.le_of_succ_le_succ hj)
          simp only [List.take_succ_cons, sumLen_cons]
          omega
      · intro hlt
        have := hover (by simpa using Nat.lt_of_succ_lt_succ hlt)
        simp only [List.take_succ_cons, sumLen_cons]
        omega

/-! ## C3: folder inclusion is prefix-greedy in discovery order -/

/-- C3: for every folder upload, among the files with non-empty,
non-whitespace-only text (in discovery order, `truthyResults`) the included
files are exactly a prefix `take k` — so the first file excluded for budget
reasons and all files after it are excluded, with no reordering and no
partial truncation (included texts are the original list entries). Every
prefix up to the cut fits the budget; when a file is excluded at all, the
first excluded file's addition would push the total over
`MAX_CONTEXT_CHARS`. `processedCount` is the cut point `k`. -/
theorem claim_c3_prefix_greedy (files : List RawFile)
    (extract : RawFile → Option String) :
    ∃ k, k ≤ (truthyResults files extract).length ∧
      processFolderLoop (folderAllResults files extract) 0 =
        (truthyResults files extract).take k ∧
      (processFolder files extract).processedCount = k ∧
      (∀ j, j ≤ k →
        sumLen ((truthyResults files extract).take j) ≤ MAX_CONTEXT_CHARS) ∧
      (k < (truthyResults files extract).length →
        MAX_CONTEXT_CHARS < sumLen ((truthyResults files extract).take (k + 1))) := by
  obtain ⟨k, hk, hek, hsum, hover⟩ :=
    greedyTake_spec (truthyResults files extract) 0 (Nat.zero_le _)
  have heq : processFolderLoop (folderAllResults files extract) 0 =
      (truthyResults files extract).take k := by
    rw [processFolderLoop_eq_greedy]
    exact hek
  refine ⟨k, hk, heq, ?_, ?_, ?_⟩
  · show (processFolderLoop (folderAllResults files extract) 0).length = k
    rw [heq, List.length_take]
    omega
  · intro j hj
    simpa using hsum j hj
  · intro hlt
    simpa using hover hlt

/-- Witness for C3 at a concrete folder: the spec's 400k/400k/400k
scenario. Three eligible files of 400000 characters each: the cut point is
2, the first two files are included and the third (and everything after
it) is excluded. -/
theorem claim_c3_witness :
    ∃ k, k ≤ (truthyResults scenarioFiles scenarioExtract).length ∧
      processFolderLoop (folderAllResults scenarioFiles scenarioExtract) 0 =
        (truthyResults scenarioFiles scenarioExtract).take k ∧
      (processFolder scenarioFiles scenarioExtract).processedCount = k ∧
      (∀ j, j ≤ k →
        sumLen ((truthyResults scenarioFiles scenarioExtract).take j) ≤
          MAX_CONTEXT_CHARS) ∧
      (k < (truthyResults scenarioFiles scenarioExtract).length →
        MAX_CONTEXT_CHARS <
          sumLen ((truthyResults scenarioFiles scenarioExtract).take (k + 1))) :=
  claim_c3_prefix_greedy scenarioFiles scenarioExtract

/-! ## C4: counts and budget bound -/

/-- C4: for every folder upload, the number of files actually merged
(`processedCount`) is at most the number of eligible files
(`totalValidFileCount`), and the sum of the included files' text lengths
is at most `MAX_CONTEXT_CHARS`. -/
theorem claim_c4_counts_and_budget (files : List RawFile)
    (extract : RawFile → Option String) :
    (processFolder files extract).processedCount ≤
      (processFolder files extract).totalValidFileCount ∧
    sumLen (processFolderLoop (folderAllResults files extract) 0) ≤
      MAX_CONTEXT_CHARS := by
  constructor
  · show (processFolderLoop (folderAllResults files extract) 0).length ≤
      (folderValidFiles files).length
    rw [processFolderLoop_eq_greedy]
    calc (greedyTake (truthyResults files extract) 0).length
        ≤ (truthyResults files extract).length :=
          greedyTake_length_le (truthyResults files extract) 0
      _ ≤ (folderAllResults files extract).length := List.length_filter_le _ _
      _ ≤ (folderValidFiles files).length := List.length_filterMap_le _ _
  · rw [processFolderLoop_eq_greedy]
    have := greedyTake_sum_le (truthyResults files extract) 0 (Nat.zero_le _)
    simpa using this

/-! ## C1: the content-length invariant -/

theorem fileBlock_length (r : FileResult) :
    (fileBlock r).length = 15 + r.name.length + r.content.length := by
  have h1 : ("--- File: " : String).length = 10 := rfl
  have h2 : (" ---\n" : String).length = 5 := rfl
  simp only [fileBlock, String.length_append, h1, h2]
  omega

/-- The merged folder content is bounded by the included texts plus the
header/separator overhead. -/
theorem folderContent_length_le (inc : List FileResult) :
    (strJoin "\n\n" (inc.map fileBlock)).length ≤ sumLen inc + headerOverhead inc := by
  have hsep : ("\n\n" : String).length = 2 := rfl
  induction inc with
  | nil => simp [strJoin, headerOverhead]
  | cons r rest ih =>
    cases rest with
    | nil =>
      simp only [List.map_cons, List.map_nil, strJoin, sumLen_cons, sumLen_nil,
        headerOverhead, List.sum_cons, List.sum_nil, List.length_cons,
        List.length_nil, fileBlock_length]
      omega
    | cons y ys =>
      simp only [List.map_cons, strJoin, String.length_append, fileBlock_length,
        sumLen_cons, headerOverhead, List.sum_cons, List.length_cons, hsep] at ih ⊢
      omega

/-- C1 as amended: single-file contexts satisfy the
`MAX_CONTEXT_CHARS` bound, and for folder uploads the sum of the included
files' text lengths satisfies it, but the merged folder content also
carries a header line per file and blank-line separators, so its total
length is only bounded by `MAX_CONTEXT_CHARS` plus that overhead (and can
exceed `MAX_CONTEXT_CHARS`, as the counterexample shows). -/
theorem claim_c1_amended (fileName content : String) (files : List RawFile)
    (extract : RawFile → Option String) :
    (handleFileUploadResult fileName content).1.content.length ≤ MAX_CONTEXT_CHARS ∧
    sumLen (processFolderLoop (folderAllResults files extract) 0) ≤ MAX_CONTEXT_CHARS ∧
    (processFolder files extract).fullContent.length ≤
      MAX_CONTEXT_CHARS +
        headerOverhead (processFolderLoop (folderAllResults files extract) 0) := by
  refine ⟨?_, ?_, ?_⟩
  · unfold handleFileUploadResult truncateContent
    by_cases h : content.length > MAX_CONTEXT_CHARS
    · simp only [h, if_pos]
      rw [jsSubstringTo_length]
      omega
    · simp only [h, if_neg, if_false]
      omega
  · rw [processFolderLoop_eq_greedy]
    simpa using greedyTake_sum_le (truthyResults files extract) 0 (Nat.zero_le _)
  · show (strJoin "\n\n"
      ((processFolderLoop (folderAllResults files extract) 0).map fileBlock)).length ≤ _
    have hb := folderContent_length_le (processFolderLoop (folderAllResults files extract) 0)
    have hs : sumLen (processFolderLoop (folderAllResults files extract) 0) ≤
        MAX_CONTEXT_CHARS := by
      rw [processFolderLoop_eq_greedy]
      simpa using greedyTake_sum_le (truthyResults files extract) 0 (Nat.zero_le _)
    omega

theorem dropWhile_replicate_of_false {p : Char → Bool} {a : Char}
    (h : p a = false) (n : Nat) :
    List.dropWhile p (List.replicate n a) = List.replicate n a := by
  cases n with
  | zero => rfl
  | succ n => simp [List.replicate_succ, List.dropWhile_cons, h]

theorem bigContent_length : bigContent.length = MAX_CONTEXT_CHARS := by
  simp [bigContent, string_mk_length]

theorem bigContent_truthy : truthyContent bigContent = true := by
  have hmk : bigContent = String.mk (List.replicate MAX_CONTEXT_CHARS 'a') := rfl
  have hsp : isJsSpace 'a' = false := rfl
  have htrim : jsTrim bigContent = bigContent := by
    rw [hmk]
    simp [jsTrim, dropWhile_replicate_of_false hsp, List.reverse_replicate]
  have hne : bigContent ≠ "" := by
    intro h
    have : bigContent.length = 0 := by rw [h]; rfl
    rw [bigContent_length] at this
    simp [MAX_CONTEXT_CHARS] at this
  simp [truthyContent, htrim, hne]

/-- C1 is false on the code: a folder upload of a single eligible file
whose text is exactly `MAX_CONTEXT_CHARS` characters attaches a
`LocalContext` whose content — with the `--- File: folder/a.txt ---` header
line, which `processFolder` does not count against the budget — is
1000027 characters, longer than `MAX_CONTEXT_CHARS`. -/
theorem claim_c1_counterexample :
    handleFolderUploadResult "folder" (processFolder [bigFile] bigExtract) =
      some { type := LCType.folder, name := "folder",
             content := fileBlock { name := "folder/a.txt", content := bigContent },
             count := 1 } ∧
    MAX_CONTEXT_CHARS <
      (fileBlock { name := "folder/a.txt", content := bigContent }).length := by
  have hvalid : folderValidFiles [bigFile] = [bigFile] := by decide
  have hall : folderAllResults [bigFile] bigExtract =
      [{ name := "folder/a.txt", content := bigContent }] := by
    rw [folderAllResults, hvalid]
    simp [bigExtract, bigFile]
  have hloop : processFolderLoop [{ name := "folder/a.txt", content := bigContent }] 0 =
      [{ name := "folder/a.txt", content := bigContent }] := by
    simp [processFolderLoop, bigContent_truthy, bigContent_length]
  have hpf : processFolder [bigFile] bigExtract =
      { fullContent := fileBlock { name := "folder/a.txt", content := bigContent },
        processedCount := 1, totalValidFileCount := 1 } := by
    show ({ fullContent := strJoin "\n\n"
              ((processFolderLoop (folderAllResults [bigFile] bigExtract) 0).map fileBlock),
            processedCount := (processFolderLoop (folderAllResults [bigFile] bigExtract) 0).length,
            totalValidFileCount := (folderValidFiles [bigFile]).length } : FolderResult) = _
    rw [hall, hloop]
    rfl
  constructor
  · rw [hpf]
    rfl
  · rw [fileBlock_length]
    have h1 : ({ name := "folder/a.txt", content := bigContent } : FileResult).content.length =
        MAX_CONTEXT_CHARS := bigContent_length
    have h2 : ({ name := "folder/a.txt", content := bigContent } : FileResult).name.length =
        12 := rfl
    omega

/-! ## C9: group removal -/

/-- C9: removing a group is rejected (the whole state, in particular the
group collection and the active group id, is unchanged) when it is the only
remaining group; when removal goes ahead (more than one group, user
confirmed) and the removed group is the currently active one, the groups
become the collection with that id filtered out and the first remaining
group in the collection becomes active. -/
theorem claim_c9_remove_group (groupId : String) (confirmed : Bool) (s : AppState) :
    (s.urlGroups.length = 1 → handleRemoveGroup groupId confirmed s = s) ∧
    (1 < s.urlGroups.length → confirmed = true → s.activeUrlGroupId = groupId →
      (handleRemoveGroup groupId confirmed s).urlGroups =
        s.urlGroups.filter (fun g => g.id != groupId) ∧
      ∀ g0, (s.urlGroups.filter fun g => g.id != groupId).head? = some g0 →
        (handleRemoveGroup groupId confirmed s).activeUrlGroupId = g0.id) := by
  constructor
  · intro h
    have hle : s.urlGroups.length ≤ 1 := by omega
    simp [handleRemoveGroup, hle]
  · intro hlen hconf hact
    have hnle : ¬ s.urlGroups.length ≤ 1 := by omega
    have hbeq : (s.activeUrlGroupId == groupId) = true := by
      simp [hact]
    constructor
    · simp [handleRemoveGroup, hnle, hconf, hbeq]
    · intro g0 hg0
      simp [handleRemoveGroup, hnle, hconf, hbeq, hg0]

/-- Witness for C9: removing the last group of a one-group state is
rejected; removing the active group `g1` of the two-group sample state
filters it out and promotes `g2`. -/
theorem claim_c9_witness :
    handleRemoveGroup "g1" true singleGroupState = singleGroupState ∧
    (handleRemoveGroup "g1" true sampleState).urlGroups =
      sampleState.urlGroups.filter (fun g => g.id != "g1") ∧
    (handleRemoveGroup "g1" true sampleState).activeUrlGroupId = "g2" := by
  refine ⟨?_, ?_, ?_⟩
  · exact (claim_c9_remove_group "g1" true singleGroupState).1 (by decide)
  · exact ((claim_c9_remove_group "g1" true sampleState).2 (by decide) rfl rfl).1
  · exact ((claim_c9_remove_group "g1" true sampleState).2 (by decide) rfl rfl).2
      { id := "g2", name := "Group 2", urls := [] } (by decide)

/-! ## C10: URL edits touch only the active group's list -/

/-- C10: adding or removing a URL modifies only the active group's url
list: both handlers leave the active group id, the message log, the local
context, and the number of groups unchanged, and leave every group whose id
is not the active id untouched; and adding is a silent no-op on a group
that already holds `MAX_URLS` URLs or already contains the URL. -/
theorem claim_c10_url_edits_frame (url urlToRemove : String) (s : AppState) :
    ((handleAddUrl url s).activeUrlGroupId = s.activeUrlGroupId ∧
     (handleAddUrl url s).chatMessages = s.chatMessages ∧
     (handleAddUrl url s).localContext = s.localContext ∧
     (handleAddUrl url s).urlGroups.length = s.urlGroups.length) ∧
    ((handleRemoveUrl urlToRemove s).activeUrlGroupId = s.activeUrlGroupId ∧
     (handleRemoveUrl urlToRemove s).chatMessages = s.chatMessages ∧
     (handleRemoveUrl urlToRemove s).localContext = s.localContext ∧
     (handleRemoveUrl urlToRemove s).urlGroups.length = s.urlGroups.length) ∧
    (∀ (i : Nat) (g : URLGroup), s.urlGroups[i]? = some g →
      g.id ≠ s.activeUrlGroupId →
      (handleAddUrl url s).urlGroups[i]? = some g ∧
      (handleRemoveUrl urlToRemove s).urlGroups[i]? = some g) ∧
    (∀ (i : Nat) (g : URLGroup), s.urlGroups[i]? = some g →
      g.id = s.activeUrlGroupId →
      (MAX_URLS ≤ g.urls.length ∨ url ∈ g.urls) →
      (handleAddUrl url s).urlGroups[i]? = some g) := by
  refine ⟨⟨rfl, rfl, rfl, by simp [handleAddUrl]⟩,
          ⟨rfl, rfl, rfl, by simp [handleRemoveUrl]⟩, ?_, ?_⟩
  · intro i g hi hne
    constructor
    · simp [handleAddUrl, hi, hne]
    · simp [handleRemoveUrl, hi, hne]
  · intro i g hi heq hfull
    have hnotcond : ¬ (g.urls.length < MAX_URLS ∧ ¬ url ∈ g.urls) := by
      rcases hfull with h | h
      · intro hc
        exact absurd hc.1 (by omega)
      · intro hc
        exact hc.2 h
    simp [handleAddUrl, hi, heq, hnotcond]

/-- Witness for C10: in the sample state, adding a URL leaves the inactive
group `g2` untouched, re-adding the already-present URL of the active group
`g1` is a no-op on it, and removing a URL leaves the chat log unchanged. -/
theorem claim_c10_witness :
    (handleAddUrl "https://new.example" sampleState).urlGroups[1]? =
      some { id := "g2", name := "Group 2", urls := [] } ∧
    (handleAddUrl "https://a.example" sampleState).urlGroups[0]? =
      some { id := "g1", name := "Group 1", urls := ["https://a.example"] } ∧
    (handleRemoveUrl "https://a.example" sampleState).chatMessages =
      sampleState.chatMessages := by
  refine ⟨?_, ?_, ?_⟩
  · exact ((claim_c10_url_edits_frame "https://new.example" "x" sampleState).2.2.1 1
      { id := "g2", name := "Group 2", urls := [] } rfl (by decide)).1
  · exact (claim_c10_url_edits_frame "https://a.example" "x" sampleState).2.2.2 0
      { id := "g1", name := "Group 1", urls := ["https://a.example"] } rfl rfl
      (Or.inr (by decide))
  · exact (claim_c10_url_edits_frame "x" "https://a.example" sampleState).2.1.2.1

/-! ## C5: suggestion-response parsing -/

/-- C5: the raw suggestion-response text is trimmed of optional code-fence
wrapping before JSON-decoding — the fenced scenario text yields the
suggestions `["a", "b"]`; on decode failure or shape mismatch (the decoded
value not being an object with a `suggestions` array) the resulting
suggestion list is empty and a system message is surfaced instead of
crashing; and the resulting list never holds more than 4 items. -/
theorem claim_c5_suggestion_parsing :
    fetchSuggestionsOutcome "```json\n\x7b\"suggestions\":[\"a\",\"b\"]\x7d\n```" =
      (["a", "b"], none) ∧
    (∀ t, t ≠ "" → jsonParse (effectiveJsonStr t) = none →
      fetchSuggestionsOutcome t = ([], some suggestionParseErrorText)) ∧
    (∀ t j, t ≠ "" → jsonParse (effectiveJsonStr t) = some j →
      suggestionsShapeOk j = false →
      fetchSuggestionsOutcome t = ([], some suggestionFormatErrorText)) ∧
    (∀ t, (fetchSuggestionsOutcome t).1.length ≤ 4) := by
  refine ⟨by decide, ?_, ?_, ?_⟩
  · intro t ht hp
    simp [fetchSuggestionsOutcome, ht, hp]
  · intro t j ht hp hshape
    simp [fetchSuggestionsOutcome, ht, hp, hshape]
  · intro t
    unfold fetchSuggestionsOutcome
    by_cases ht : t = ""
    · simp [ht]
    · simp only [ht, bne_iff_ne, ne_eq, not_false_eq_true, if_true]
      cases hp : jsonParse (effectiveJsonStr t) with
      | none => simp
      | some parsed =>
        by_cases hs : suggestionsShapeOk parsed
        · simp [hs, List.length_take]
        · simp [hs]

/-- Witness for C5 at concrete inputs: non-JSON text degrades to an empty
list with the parse-error message, a JSON array (wrong shape) degrades to
an empty list with the format-error message, and an oversized suggestion
list is capped. -/
theorem claim_c5_witness :
    fetchSuggestionsOutcome "notjson" = ([], some suggestionParseErrorText) ∧
    fetchSuggestionsOutcome "[1,2]" = ([], some suggestionFormatErrorText) ∧
    (fetchSuggestionsOutcome
      "\x7b\"suggestions\":[\"a\",\"b\",\"c\",\"d\",\"e\",\"f\"]\x7d").1.length ≤ 4 := by
  refine ⟨?_, ?_, ?_⟩
  · exact claim_c5_suggestion_parsing.2.1 "notjson" (by decide) (by rfl)
  · exact claim_c5_suggestion_parsing.2.2.1 "[1,2]"
      (Json.arr [Json.num "1", Json.num "2"]) (by decide) (by rfl) (by rfl)
  · exact claim_c5_suggestion_parsing.2.2.2 _

end ChatWithDocs
